import Mathlib

/-!
Verification development for the `epstein-studio` repository.

This file gives a shallow embedding of the security-relevant logic of the
repository:

* the outbound URL validators `is_allowed_download_url`
  (`scripts/download_epstein_files.py`) and `is_allowed_upload_url`
  (`scripts/upload_to_blob.py`), both instances of one parametric check
  over an allowlist of hostnames;
* the IP-address classification predicates those validators consult,
  translated from CPython's `ipaddress` module (`is_private`, `is_loopback`,
  `is_link_local`, `is_multicast`, `is_reserved`, `is_unspecified`,
  `is_global`) for both IPv4 and IPv6;
* the guarded network actions `download_file` and `upload_file`;
* the zip extraction routine `extract_pdfs`
  (`scripts/download_epstein_files.py`), together with a model of
  `pathlib.PurePosixPath(...).name`;
* the per-key fixed-window rate limiter described by the spec and exercised
  by `apps/epstein_ui/tests.py` (its implementation, in `views.py`, is not
  among the sources; it is modelled from the spec).

Environment effects (URL parsing by `urllib.parse.urlparse`, DNS resolution
by `socket.getaddrinfo`, the HTTP client, the filesystem) are passed in as
explicit parameters, so every function here is a pure, executable Lean
definition.
-/

namespace EpsteinStudio

/-! ### IP address classification

Translated from CPython's `Lib/ipaddress.py` (3.11 line).  An IPv4 address
is its 32-bit value as a `Nat`, an IPv6 address its 128-bit value.
Membership of an address in a CIDR network `net/plen` compares the top
`plen` bits. -/

/-- `a` lies in the IPv4 network with base address `net` and prefix length
`plen` (top `plen` of 32 bits agree). -/
def inNet4 (a net plen : Nat) : Bool :=
  a / 2 ^ (32 - plen) == net / 2 ^ (32 - plen)

/-- Build a 32-bit IPv4 value from four dotted-quad bytes. -/
def v4 (b0 b1 b2 b3 : Nat) : Nat :=
  ((b0 * 256 + b1) * 256 + b2) * 256 + b3

/-- CPython `IPv4Address.is_private`: membership in one of the module's
`_private_networks`. -/
def ipv4_is_private (a : Nat) : Bool :=
  inNet4 a (v4 0 0 0 0) 8 ||
  inNet4 a (v4 10 0 0 0) 8 ||
  inNet4 a (v4 127 0 0 0) 8 ||
  inNet4 a (v4 169 254 0 0) 16 ||
  inNet4 a (v4 172 16 0 0) 12 ||
  inNet4 a (v4 192 0 0 0) 29 ||
  inNet4 a (v4 192 0 0 170) 31 ||
  inNet4 a (v4 192 0 2 0) 24 ||
  inNet4 a (v4 192 168 0 0) 16 ||
  inNet4 a (v4 198 18 0 0) 15 ||
  inNet4 a (v4 198 51 100 0) 24 ||
  inNet4 a (v4 203 0 113 0) 24 ||
  inNet4 a (v4 240 0 0 0) 4 ||
  inNet4 a (v4 255 255 255 255) 32

/-- CPython `IPv4Address.is_global`: not in the shared address space
`100.64.0.0/10` and not private. -/
def ipv4_is_global (a : Nat) : Bool :=
  !inNet4 a (v4 100 64 0 0) 10 && !ipv4_is_private a

/-- CPython `IPv4Address.is_loopback`: `127.0.0.0/8`. -/
def ipv4_is_loopback (a : Nat) : Bool := inNet4 a (v4 127 0 0 0) 8

/-- CPython `IPv4Address.is_link_local`: `169.254.0.0/16`. -/
def ipv4_is_link_local (a : Nat) : Bool := inNet4 a (v4 169 254 0 0) 16

/-- CPython `IPv4Address.is_multicast`: `224.0.0.0/4`. -/
def ipv4_is_multicast (a : Nat) : Bool := inNet4 a (v4 224 0 0 0) 4

/-- CPython `IPv4Address.is_reserved`: `240.0.0.0/4`. -/
def ipv4_is_reserved (a : Nat) : Bool := inNet4 a (v4 240 0 0 0) 4

/-- CPython `IPv4Address.is_unspecified`: `0.0.0.0`. -/
def ipv4_is_unspecified (a : Nat) : Bool := a == 0

/-- `a` lies in the IPv6 network with base address `net` and prefix length
`plen` (top `plen` of 128 bits agree). -/
def inNet6 (a net plen : Nat) : Bool :=
  a / 2 ^ (128 - plen) == net / 2 ^ (128 - plen)

/-- Place a 16-bit group into the top hextet of a 128-bit IPv6 value. -/
def v6hi (g : Nat) : Nat := g * 2 ^ 112

/-- CPython `IPv6Address.is_private`: membership in one of the module's
`_private_networks` (`::1/128`, `::/128`, `::ffff:0:0/96`, `100::/64`,
`2001::/23`, `2001:2::/48`, `2001:db8::/32`, `2001:10::/28`, `fc00::/7`,
`fe80::/10`). -/
def ipv6_is_private (a : Nat) : Bool :=
  (a == 1) ||
  (a == 0) ||
  inNet6 a (0xffff * 2 ^ 32) 96 ||
  inNet6 a (v6hi 0x100) 64 ||
  inNet6 a (v6hi 0x2001) 23 ||
  inNet6 a (v6hi 0x2001 + 0x2 * 2 ^ 96) 48 ||
  inNet6 a (v6hi 0x2001 + 0xdb8 * 2 ^ 96) 32 ||
  inNet6 a (v6hi 0x2001 + 0x10 * 2 ^ 96) 28 ||
  inNet6 a (v6hi 0xfc00) 7 ||
  inNet6 a (v6hi 0xfe80) 10

/-- CPython `IPv6Address.is_global`: not private. -/
def ipv6_is_global (a : Nat) : Bool := !ipv6_is_private a

/-- CPython `IPv6Address.is_loopback`: `::1`. -/
def ipv6_is_loopback (a : Nat) : Bool := a == 1

/-- CPython `IPv6Address.is_link_local`: `fe80::/10`. -/
def ipv6_is_link_local (a : Nat) : Bool := inNet6 a (v6hi 0xfe80) 10

/-- CPython `IPv6Address.is_multicast`: `ff00::/8`. -/
def ipv6_is_multicast (a : Nat) : Bool := inNet6 a (v6hi 0xff00) 8

/-- CPython `IPv6Address.is_reserved`: membership in one of the module's
`_reserved_networks`. -/
def ipv6_is_reserved (a : Nat) : Bool :=
  inNet6 a (v6hi 0x0000) 8 ||
  inNet6 a (v6hi 0x0100) 8 ||
  inNet6 a (v6hi 0x0200) 7 ||
  inNet6 a (v6hi 0x0400) 6 ||
  inNet6 a (v6hi 0x0800) 5 ||
  inNet6 a (v6hi 0x1000) 4 ||
  inNet6 a (v6hi 0x4000) 3 ||
  inNet6 a (v6hi 0x6000) 3 ||
  inNet6 a (v6hi 0x8000) 3 ||
  inNet6 a (v6hi 0xa000) 3 ||
  inNet6 a (v6hi 0xc000) 3 ||
  inNet6 a (v6hi 0xe000) 4 ||
  inNet6 a (v6hi 0xf000) 5 ||
  inNet6 a (v6hi 0xf800) 6 ||
  inNet6 a (v6hi 0xfe00) 9

/-- CPython `IPv6Address.is_unspecified`: `::`. -/
def ipv6_is_unspecified (a : Nat) : Bool := a == 0

/-- A resolved IP address: IPv4 or IPv6, as produced by
`ipaddress.ip_address` on the first component of a `getaddrinfo` sockaddr. -/
inductive IPAddr where
  | v4 (a : Nat)
  | v6 (a : Nat)
deriving DecidableEq, Repr

def IPAddr.is_private : IPAddr → Bool
  | .v4 a => ipv4_is_private a
  | .v6 a => ipv6_is_private a

def IPAddr.is_loopback : IPAddr → Bool
  | .v4 a => ipv4_is_loopback a
  | .v6 a => ipv6_is_loopback a

def IPAddr.is_link_local : IPAddr → Bool
  | .v4 a => ipv4_is_link_local a
  | .v6 a => ipv6_is_link_local a

def IPAddr.is_multicast : IPAddr → Bool
  | .v4 a => ipv4_is_multicast a
  | .v6 a => ipv6_is_multicast a

def IPAddr.is_reserved : IPAddr → Bool
  | .v4 a => ipv4_is_reserved a
  | .v6 a => ipv6_is_reserved a

def IPAddr.is_unspecified : IPAddr → Bool
  | .v4 a => ipv4_is_unspecified a
  | .v6 a => ipv6_is_unspecified a

def IPAddr.is_global : IPAddr → Bool
  | .v4 a => ipv4_is_global a
  | .v6 a => ipv6_is_global a

/-- The rejection condition applied to each resolved address inside the
validators' `for` loop (`download_epstein_files.py` lines 156–163,
`upload_to_blob.py` lines 60–67): private, loopback, link-local, multicast,
reserved or unspecified. -/
def IPAddr.disallowed (ip : IPAddr) : Bool :=
  ip.is_private || ip.is_loopback || ip.is_link_local ||
  ip.is_multicast || ip.is_reserved || ip.is_unspecified

/-! ### The outbound URL validator -/

/-- The fields of a successful `urllib.parse.urlparse` result that the
validators inspect: `scheme` and `hostname` (`hostname` is `None` when the
URL has no host). -/
structure URLParts where
  scheme : String
  hostname : Option String
deriving DecidableEq, Repr

/-- Python truthiness of `parsed.hostname`: falsy when `None` or the empty
string (the validators test `not parsed.hostname`). -/
def hostnameTruthy : Option String → Bool
  | none => false
  | some s => !(s == "")

/-- Python `str.lower()`, char by char (the hostnames and suffixes at issue
are ASCII). -/
def strLower (s : String) : String :=
  String.mk (s.data.map Char.toLower)

/-- Outcome of `socket.getaddrinfo(hostname, None)`: either a `gaierror`
or the list of resolved addresses (first sockaddr components). -/
inductive DNSResult where
  | failure
  | success (addrs : List IPAddr)
deriving DecidableEq, Repr

/-- The common body of `is_allowed_download_url` and
`is_allowed_upload_url`, parametric in the allowlist (the two source
functions are textually identical apart from it, and match the spec's
`is_public_outbound_url(url, allowed_hosts)` contract).

`parseResult` is the outcome of `urllib.parse.urlparse(url)` (`none` for a
`ValueError`); `dns` gives the outcome of `socket.getaddrinfo` on the
lowercased hostname. -/
def is_public_outbound_url (allowed_hosts : List String)
    (parseResult : Option URLParts) (dns : String → DNSResult) : Bool :=
  match parseResult with
  | none => false
  | some parsed =>
    if !(parsed.scheme == "https") || !hostnameTruthy parsed.hostname then
      false
    else
      let hostname := strLower (parsed.hostname.getD "")
      if !(allowed_hosts.contains hostname) then
        false
      else
        match dns hostname with
        | .failure => false
        | .success addrs => addrs.all (fun ip => !ip.disallowed)

/-- `ALLOWED_DOWNLOAD_HOSTS` from `scripts/download_epstein_files.py`. -/
def ALLOWED_DOWNLOAD_HOSTS : List String :=
  ["archive.org", "copyparty.vvv.systems", "www.justice.gov"]

/-- `ALLOWED_UPLOAD_HOSTS` from `scripts/upload_to_blob.py`. -/
def ALLOWED_UPLOAD_HOSTS : List String :=
  ["blob.vercel-storage.com"]

/-- `is_allowed_download_url` from `scripts/download_epstein_files.py`
(lines 135–166). -/
def is_allowed_download_url (parseResult : Option URLParts)
    (dns : String → DNSResult) : Bool :=
  is_public_outbound_url ALLOWED_DOWNLOAD_HOSTS parseResult dns

/-- `is_allowed_upload_url` from `scripts/upload_to_blob.py`
(lines 39–70). -/
def is_allowed_upload_url (parseResult : Option URLParts)
    (dns : String → DNSResult) : Bool :=
  is_public_outbound_url ALLOWED_UPLOAD_HOSTS parseResult dns

/-! ### The guarded network actions `download_file` and `upload_file` -/

/-- Outcome of `urllib.request.urlopen` on a request (the streaming loop of
`download_file` and the response parsing of `upload_file` are abstracted to
the final status): an `HTTPError`, a `URLError`, another `OSError`, or a
successful response. -/
inductive UrlOpenResult where
  | httpError (code : Nat)
  | urlError
  | osError
  | ok
deriving DecidableEq, Repr

/-- `download_file` from `scripts/download_epstein_files.py`
(lines 169–235), at the granularity of its result and its network effect.
The first component is the returned `bool`; the second counts the
socket-level connections opened (`urllib.request.urlopen` calls).  The
validator gate at lines 172–174 returns `False` before any request is
built; afterwards exactly one `urlopen` is attempted, whose failure modes
(`HTTPError`/`URLError`/`OSError`, lines 227–235) all return `False`. -/
def download_file (parseResult : Option URLParts) (dns : String → DNSResult)
    (uopen : UrlOpenResult) : Bool × Nat :=
  if !(is_allowed_download_url parseResult dns) then
    (false, 0)
  else
    match uopen with
    | .httpError _ => (false, 1)
    | .urlError => (false, 1)
    | .osError => (false, 1)
    | .ok => (true, 1)

/-- A successful upload's manifest entry (`filename`, `url`, `size`). -/
structure UploadResult where
  filename : String
  url : String
  size : Nat
deriving DecidableEq, Repr

/-- `upload_file` from `scripts/upload_to_blob.py` (lines 73–118), at the
granularity of its result and its network effect.  The first component is
the returned value (`None` on failure); the second counts the connections
opened.  The validator gate at lines 82–84 returns `None` before the
request is built; afterwards exactly one `urlopen` is attempted, whose
failure modes all return `None`. -/
def upload_file (filename : String) (dataSize : Nat)
    (parseResult : Option URLParts) (dns : String → DNSResult)
    (uopen : UrlOpenResult) (respUrl : String) : Option UploadResult × Nat :=
  if !(is_allowed_upload_url parseResult dns) then
    (none, 0)
  else
    match uopen with
    | .httpError _ => (none, 1)
    | .urlError => (none, 1)
    | .osError => (none, 1)
    | .ok => (some ⟨filename, respUrl, dataSize⟩, 1)

/-! ### Zip extraction: `extract_pdfs` -/

/-- Last path component of a reversed character list, skipping trailing
empty and `.` components (returned still reversed): a trailing `/` or a
trailing `.` component is dropped, any other final component is returned
up to its `/`. -/
def nameRev : List Char → List Char
  | [] => []
  | c :: r =>
    if c = '/' then nameRev r
    else if c = '.' then
      match r with
      | [] => []
      | c2 :: r2 =>
        if c2 = '/' then nameRev r2
        else c :: r.takeWhile (fun x => x ≠ '/')
    else c :: r.takeWhile (fun x => x ≠ '/')

/-- Model of `pathlib.PurePosixPath(s).name`, as used by `extract_pdfs`
(`filename = Path(member).name`): the final path component, where trailing
slashes and `.` components are skipped and `..` is an ordinary component
(checked against CPython 3.11 `pathlib`). -/
def pathName (s : String) : String :=
  String.mk (nameRev s.data.reverse).reverse

/-- Python `member.lower().endswith(".pdf")`, at the character level. -/
def endsWithPdf (cs : List Char) : Bool :=
  ['f', 'd', 'p', '.'].isPrefixOf ((cs.map Char.toLower).reverse)

/-- Mutable state threaded through `extract_pdfs`: the count of extracted
files, the set of paths present on the filesystem, and the chronological
list of paths written by this run. -/
structure ExtractState where
  count : Nat
  fs : List String
  writes : List String
deriving Repr

/-- One iteration of the member loop of `extract_pdfs`
(`scripts/download_epstein_files.py` lines 263–284): skip non-PDF members,
take the basename only, skip empty basenames, skip destinations that
already exist, then write (a write that raises — the `except` at line 283 —
is modelled by `writeOk` returning `false` and leaves the state
unchanged). -/
def extractStep (destDir : String) (writeOk : String → Bool)
    (st : ExtractState) (member : String) : ExtractState :=
  if endsWithPdf member.data then
    let filename := pathName member
    if filename = "" then st
    else
      let destPath := destDir ++ "/" ++ filename
      if st.fs.contains destPath then st
      else if writeOk destPath then
        { count := st.count + 1, fs := destPath :: st.fs,
          writes := st.writes ++ [destPath] }
      else st
  else st

/-- `extract_pdfs` from `scripts/download_epstein_files.py`
(lines 257–287): iterate `extractStep` over the zip's member names,
starting from the given filesystem contents and a zero count. -/
def extract_pdfs (members : List String) (destDir : String)
    (fs : List String) (writeOk : String → Bool) : ExtractState :=
  members.foldl (extractStep destDir writeOk) ⟨0, fs, []⟩

/-! ### The fixed-window rate limiter

The limiter's implementation lives in `apps/epstein_ui/views.py`, which is
not among the sources; only its tests (`apps/epstein_ui/tests.py`) and the
spec describe it.  The definitions below are therefore modelled from the
spec. -/

/-- Modelled from the spec: the per-key record held in the shared counter
store — absent, or an active window with a request count and the window's
start time. -/
inductive RLState where
  | noEntry
  | active (count : Nat) (windowStart : Nat)
deriving DecidableEq, Repr

/-- Outcome of a rate-limit check. -/
inductive RLResult where
  | allowed
  | rateLimited
deriving DecidableEq, Repr

/-- Modelled from the spec: `check_and_increment(key, window_seconds,
max_requests)` of `apps/epstein_ui/views.py` (file absent from the
sources), restricted to one key's record.  First request of a fresh window
creates `active 1 now`; an elapsed window (`now - windowStart >=
window_seconds`) resets to `active 1 now`; otherwise the count increments
while below `max_requests`, else the call is rejected without mutation. -/
def check_and_increment (windowSeconds maxRequests now : Nat) :
    RLState → RLResult × RLState
  | .noEntry => (.allowed, .active 1 now)
  | .active count windowStart =>
    if windowSeconds ≤ now - windowStart then
      (.allowed, .active 1 now)
    else if count < maxRequests then
      (.allowed, .active (count + 1) windowStart)
    else
      (.rateLimited, .active count windowStart)

/-- Run a sequence of calls (given by their timestamps) for one key through
`check_and_increment`, returning the results in order and the final
state. -/
def runCalls (windowSeconds maxRequests : Nat) :
    List Nat → RLState → List RLResult × RLState
  | [], s => ([], s)
  | t :: ts, s =>
    let step := check_and_increment windowSeconds maxRequests t s
    let rest := runCalls windowSeconds maxRequests ts step.2
    (step.1 :: rest.1, rest.2)

/-- The per-key step relation exactly as the spec states it, to be compared
with `check_and_increment`. -/
inductive RLStep (windowSeconds maxRequests now : Nat) :
    RLState → RLResult → RLState → Prop where
  | first :
      RLStep windowSeconds maxRequests now .noEntry .allowed (.active 1 now)
  | reset (count windowStart : Nat)
      (h : windowSeconds ≤ now - windowStart) :
      RLStep windowSeconds maxRequests now (.active count windowStart)
        .allowed (.active 1 now)
  | increment (count windowStart : Nat)
      (h : now - windowStart < windowSeconds) (hc : count < maxRequests) :
      RLStep windowSeconds maxRequests now (.active count windowStart)
        .allowed (.active (count + 1) windowStart)
  | reject (count windowStart : Nat)
      (h : now - windowStart < windowSeconds) (hc : maxRequests ≤ count) :
      RLStep windowSeconds maxRequests now (.active count windowStart)
        .rateLimited (.active count windowStart)

/-! ## Theorems -/

/-- C1: if DNS resolution of the (lowercased) hostname returns at least one
address that is private, loopback, link-local, multicast, reserved, or
unspecified, the validator returns false; if the hostname is allowlisted,
the scheme is https, and every resolved address passes the classification,
it returns true — one disallowed address rejects the whole URL.  Both
`is_allowed_download_url` and `is_allowed_upload_url` are instances of
`is_public_outbound_url` at their respective allowlists. -/
theorem validator_rejects_any_disallowed_address_and_accepts_all_public
    (hosts : List String) (parseResult : Option URLParts)
    (dns : String → DNSResult) (p : URLParts) (hn : String)
    (addrs : List IPAddr) (hp : parseResult = some p)
    (hh : p.hostname = some hn)
    (hdns : dns (strLower hn) = .success addrs) :
    ((∃ ip ∈ addrs, ip.disallowed = true) →
      is_public_outbound_url hosts parseResult dns = false) ∧
    (p.scheme = "https" → hn ≠ "" →
      hosts.contains (strLower hn) = true →
      (∀ ip ∈ addrs, ip.disallowed = false) →
      is_public_outbound_url hosts parseResult dns = true) := by
  subst hp
  constructor
  · rintro ⟨ip, hip, hbad⟩
    simp only [is_public_outbound_url, hh, Option.getD_some]
    split
    · rfl
    · split
      · rfl
      · rw [hdns]
        refine Bool.eq_false_iff.mpr fun hall => ?_
        have hgood := List.all_eq_true.mp hall ip hip
        simp [hbad] at hgood
  · intro hscheme hne hmem hall
    simp only [is_public_outbound_url, hh, Option.getD_some, hscheme,
      hostnameTruthy]
    rw [if_neg (by simp [hne]), if_neg (by rw [hmem]; simp), hdns]
    simp only [List.all_eq_true, Bool.not_eq_true']
    exact hall

/-- Witness for C1 at a concrete input: `https://archive.org` resolving to
the loopback address `127.0.0.1` is rejected, and resolving to the public
address `140.82.114.6` is accepted. -/
theorem validator_rejects_any_disallowed_address_and_accepts_all_public_witness :
    is_public_outbound_url ["archive.org"] (some ⟨"https", some "archive.org"⟩)
      (fun _ => .success [.v4 (v4 127 0 0 1)]) = false ∧
    is_public_outbound_url ["archive.org"] (some ⟨"https", some "archive.org"⟩)
      (fun _ => .success [.v4 (v4 140 82 114 6)]) = true :=
  ⟨(validator_rejects_any_disallowed_address_and_accepts_all_public
      ["archive.org"] _ _ _ "archive.org" [.v4 (v4 127 0 0 1)] rfl rfl
      (by decide)).1 ⟨.v4 (v4 127 0 0 1), by decide, by decide⟩,
   (validator_rejects_any_disallowed_address_and_accepts_all_public
      ["archive.org"] _ _ _ "archive.org" [.v4 (v4 140 82 114 6)] rfl rfl
      (by decide)).2 rfl (by decide) (by decide) (by decide)⟩

/-- C2: a URL whose lowercased hostname is not exactly a member of the
allowlist is rejected regardless of what DNS resolution returns;
membership is exact string equality after lowercasing (so a subdomain of
an allowlisted host is rejected, as the witness shows). -/
theorem validator_requires_exact_allowlisted_hostname
    (hosts : List String) (parseResult : Option URLParts)
    (dns : String → DNSResult) (p : URLParts) (hn : String)
    (hp : parseResult = some p) (hh : p.hostname = some hn)
    (hmem : hosts.contains (strLower hn) = false) :
    is_public_outbound_url hosts parseResult dns = false := by
  subst hp
  simp only [is_public_outbound_url, hh, Option.getD_some]
  split
  · rfl
  · rw [if_pos (by rw [hmem]; rfl)]

/-- Witness for C2: `https://sub.archive.org` is rejected even though
`archive.org` is allowlisted and the subdomain resolves to a public
address. -/
theorem validator_requires_exact_allowlisted_hostname_witness :
    is_allowed_download_url (some ⟨"https", some "sub.archive.org"⟩)
      (fun _ => .success [.v4 (v4 140 82 114 6)]) = false :=
  validator_requires_exact_allowlisted_hostname ALLOWED_DOWNLOAD_HOSTS _ _ _
    "sub.archive.org" rfl rfl (by decide)

/-- C4: the validator returns false (a value, not an exception) whenever
URL parsing fails (`urlparse` raised), the scheme is anything other than
https, or the parsed URL has no hostname (absent or empty). -/
theorem validator_fails_closed_on_parse_scheme_hostname
    (hosts : List String) (parseResult : Option URLParts)
    (dns : String → DNSResult)
    (h : parseResult = none ∨ ∃ p, parseResult = some p ∧
      (p.scheme ≠ "https" ∨ hostnameTruthy p.hostname = false)) :
    is_public_outbound_url hosts parseResult dns = false := by
  rcases h with h | ⟨p, hp, hbad⟩
  · subst h; rfl
  · subst hp
    simp only [is_public_outbound_url]
    rcases hbad with hs | ht
    · rw [if_pos (by simp [hs])]
    · rw [if_pos (by simp [ht])]

/-- Witness for C4: an `http` URL is rejected, and a URL with no hostname
is rejected. -/
theorem validator_fails_closed_on_parse_scheme_hostname_witness :
    is_allowed_download_url (some ⟨"http", some "archive.org"⟩)
      (fun _ => .success [.v4 (v4 140 82 114 6)]) = false ∧
    is_allowed_download_url (some ⟨"https", none⟩)
      (fun _ => .success [.v4 (v4 140 82 114 6)]) = false :=
  ⟨validator_fails_closed_on_parse_scheme_hostname ALLOWED_DOWNLOAD_HOSTS _ _
      (Or.inr ⟨_, rfl, Or.inl (by decide)⟩),
   validator_fails_closed_on_parse_scheme_hostname ALLOWED_DOWNLOAD_HOSTS _ _
      (Or.inr ⟨_, rfl, Or.inr rfl⟩)⟩

/-- C5: for an allowlisted https URL, DNS resolution failure
(`socket.gaierror`) makes the validator return false — a rejection value,
not an exception. -/
theorem validator_fails_closed_on_dns_failure
    (hosts : List String) (parseResult : Option URLParts)
    (dns : String → DNSResult) (p : URLParts) (hn : String)
    (hp : parseResult = some p) (hh : p.hostname = some hn)
    (hscheme : p.scheme = "https") (hne : hn ≠ "")
    (hmem : hosts.contains (strLower hn) = true)
    (hdns : dns (strLower hn) = .failure) :
    is_public_outbound_url hosts parseResult dns = false := by
  subst hp
  simp only [is_public_outbound_url, hh, Option.getD_some, hscheme,
    hostnameTruthy]
  rw [if_neg (by simp [hne]), if_neg (by rw [hmem]; simp), hdns]

/-- Witness for C5: `https://archive.org` with failing DNS is rejected. -/
theorem validator_fails_closed_on_dns_failure_witness :
    is_allowed_download_url (some ⟨"https", some "archive.org"⟩)
      (fun _ => .failure) = false :=
  validator_fails_closed_on_dns_failure ALLOWED_DOWNLOAD_HOSTS _ _ _
    "archive.org" rfl rfl rfl (by decide) (by decide) rfl

/-- C10: if DNS resolution succeeds with an empty address list for an
allowlisted https URL, the validator returns true — the per-address checks
are vacuously satisfied. -/
theorem validator_accepts_empty_resolution
    (hosts : List String) (parseResult : Option URLParts)
    (dns : String → DNSResult) (p : URLParts) (hn : String)
    (hp : parseResult = some p) (hh : p.hostname = some hn)
    (hscheme : p.scheme = "https") (hne : hn ≠ "")
    (hmem : hosts.contains (strLower hn) = true)
    (hdns : dns (strLower hn) = .success []) :
    is_public_outbound_url hosts parseResult dns = true := by
  subst hp
  simp only [is_public_outbound_url, hh, Option.getD_some, hscheme,
    hostnameTruthy]
  rw [if_neg (by simp [hne]), if_neg (by rw [hmem]; simp), hdns]
  rfl

/-- Witness for C10: `https://archive.org` whose resolution returns an
empty address list is accepted. -/
theorem validator_accepts_empty_resolution_witness :
    is_allowed_download_url (some ⟨"https", some "archive.org"⟩)
      (fun _ => .success []) = true :=
  validator_accepts_empty_resolution ALLOWED_DOWNLOAD_HOSTS _ _ _
    "archive.org" rfl rfl rfl (by decide) (by decide) rfl

/-- C3 counterexample: the claim "the validator returns true only when
every resolved address is globally routable" is false on the code.  The
shared address space `100.64.0.0/10` (CGNAT, a special-use IANA range) is
neither private, loopback, link-local, multicast, reserved, nor
unspecified under CPython's classification, so the validator accepts
`100.64.0.1` even though `is_global` is false for it. -/
theorem validator_accepts_non_global_shared_address :
    is_allowed_download_url (some ⟨"https", some "archive.org"⟩)
      (fun _ => .success [.v4 (v4 100 64 0 1)]) = true ∧
    (IPAddr.v4 (v4 100 64 0 1)).is_global = false := by
  decide

/-- C3 (amended): the validator returns true only when every resolved
address passes the six-way classification (not private, loopback,
link-local, multicast, reserved, or unspecified); such addresses need not
be globally routable. -/
theorem validator_true_implies_addresses_pass_classification
    (hosts : List String) (parseResult : Option URLParts)
    (dns : String → DNSResult) (p : URLParts) (hn : String)
    (addrs : List IPAddr)
    (hp : parseResult = some p) (hh : p.hostname = some hn)
    (hdns : dns (strLower hn) = .success addrs)
    (htrue : is_public_outbound_url hosts parseResult dns = true) :
    ∀ ip ∈ addrs, ip.disallowed = false := by
  subst hp
  simp only [is_public_outbound_url, hh, Option.getD_some] at htrue
  intro ip hip
  by_cases hcond : (!(p.scheme == "https") || !hostnameTruthy (some hn)) = true
  · rw [if_pos hcond] at htrue
    exact absurd htrue (by simp)
  · rw [if_neg hcond] at htrue
    by_cases hmem : (!(hosts.contains (strLower hn))) = true
    · rw [if_pos hmem] at htrue
      exact absurd htrue (by simp)
    · rw [if_neg hmem, hdns] at htrue
      simpa using List.all_eq_true.mp htrue ip hip

/-- Witness for the amended C3: a run of the validator that returns true,
whose single resolved address indeed passes the classification. -/
theorem validator_true_implies_addresses_pass_classification_witness :
    (IPAddr.v4 (v4 140 82 114 6)).disallowed = false :=
  validator_true_implies_addresses_pass_classification
    ALLOWED_DOWNLOAD_HOSTS (some ⟨"https", some "archive.org"⟩)
    (fun _ => .success [.v4 (v4 140 82 114 6)]) _ "archive.org" _
    rfl rfl rfl (by decide) (.v4 (v4 140 82 114 6)) (by decide)

/-- C8: the socket-level request is issued only after the validator has
approved the URL — whenever the validator returns false, `download_file`
returns `False` and `upload_file` returns `None`, in both cases with zero
network connections opened. -/
theorem network_request_only_after_validator :
    (∀ parseResult dns uopen,
      is_allowed_download_url parseResult dns = false →
      download_file parseResult dns uopen = (false, 0)) ∧
    (∀ fn sz parseResult dns uopen respUrl,
      is_allowed_upload_url parseResult dns = false →
      upload_file fn sz parseResult dns uopen respUrl = (none, 0)) := by
  constructor
  · intro parseResult dns uopen h
    simp [download_file, h]
  · intro fn sz parseResult dns uopen respUrl h
    simp [upload_file, h]

/-- Witness for C8: a blocked `http` download URL and a blocked upload URL
with failing DNS produce failure results with zero connections opened. -/
theorem network_request_only_after_validator_witness :
    download_file (some ⟨"http", some "archive.org"⟩)
      (fun _ => .success [.v4 (v4 140 82 114 6)]) .ok = (false, 0) ∧
    upload_file "f.pdf" 10 (some ⟨"https", some "blob.vercel-storage.com"⟩)
      (fun _ => .failure) .ok "u" = (none, 0) :=
  ⟨network_request_only_after_validator.1 _ _ _ (by decide),
   network_request_only_after_validator.2 _ _ _ _ _ _ (by decide)⟩

theorem runCalls_append (w m : Nat) (ts1 ts2 : List Nat) (s : RLState) :
    runCalls w m (ts1 ++ ts2) s =
      ((runCalls w m ts1 s).1 ++ (runCalls w m ts2 (runCalls w m ts1 s).2).1,
       (runCalls w m ts2 (runCalls w m ts1 s).2).2) := by
  induction ts1 generalizing s with
  | nil => simp [runCalls]
  | cons t ts ih => simp [runCalls, ih]

/-- Within an open window that started at `t0`, every call increments the
active counter and is allowed, while capacity remains. -/
theorem runCalls_within_window (w m t0 : Nat) (ts : List Nat) :
    ∀ k : Nat, (∀ t ∈ ts, t - t0 < w) → k + ts.length ≤ m →
    runCalls w m ts (.active k t0) =
      (List.replicate ts.length .allowed, .active (k + ts.length) t0) := by
  induction ts with
  | nil => intro k _ _; simp [runCalls]
  | cons t ts ih =>
    intro k hin hk
    have ht : t - t0 < w := hin t (by simp)
    have hlt : k < m := by simp at hk; omega
    simp only [runCalls, check_and_increment]
    rw [if_neg (by omega), if_pos hlt]
    rw [ih (k + 1) (fun t' ht' => hin t' (by simp [ht']))
        (by simp at hk ⊢; omega)]
    have harr : k + (ts.length + 1) = k + 1 + ts.length := by omega
    simp [List.replicate_succ, harr]

/-- C6: for a given key, exactly `max_requests` calls within one window of
`window_seconds` succeed, and the next call in the same window is
rejected: starting from no entry, a first call at `t0` followed by
`max_requests - 1` calls within the window all return `Allowed`, and one
more call still inside the window returns `RateLimited`.  (The endpoints
surface `Allowed` as HTTP 200/503 and `RateLimited` as HTTP 429; that
mapping lives in the Django views, outside the modelled core.) -/
theorem rate_limiter_window_quota (w m t0 tLast : Nat) (ts : List Nat)
    (hm : 1 ≤ m) (hlen : ts.length = m - 1)
    (hts : ∀ t ∈ ts, t0 ≤ t ∧ t - t0 < w)
    (hlast1 : t0 ≤ tLast) (hlast2 : tLast - t0 < w) :
    runCalls w m (t0 :: ts ++ [tLast]) .noEntry =
      (List.replicate m .allowed ++ [.rateLimited], .active m t0) := by
  have hm' : m = ts.length + 1 := by omega
  subst hm'
  simp only [runCalls, check_and_increment]
  rw [List.append_eq, runCalls_append]
  rw [runCalls_within_window w (ts.length + 1) t0 ts 1
      (fun t ht => (hts t ht).2) (by omega)]
  simp only [runCalls, check_and_increment]
  rw [if_neg (by omega), if_neg (by omega)]
  simp [List.replicate_succ, Nat.add_comm]

/-- Witness for C6 with the spec's scenario numbers: window 60, limit 5,
six calls at seconds 0..5 — five `Allowed`, then `RateLimited`. -/
theorem rate_limiter_window_quota_witness :
    runCalls 60 5 (0 :: [1, 2, 3, 4] ++ [5]) .noEntry =
      (List.replicate 5 .allowed ++ [.rateLimited], .active 5 0) :=
  rate_limiter_window_quota 60 5 0 5 [1, 2, 3, 4] (by decide) (by decide)
    (by decide) (by decide) (by decide)

/-- C7: the per-key limiter state follows exactly the spec's step
relation: `check_and_increment` maps a state to a result and successor
state precisely when `RLStep` relates them — a first call creates
`active 1 now`; an elapsed window resets to `active 1 now` even if
exhausted; otherwise the count increments below `max_requests`, else the
call is rejected with the stored counter unchanged. -/
theorem rate_limiter_step_relation (w m now : Nat) (s : RLState)
    (r : RLResult) (s' : RLState) :
    RLStep w m now s r s' ↔ check_and_increment w m now s = (r, s') := by
  constructor
  · intro h
    cases h with
    | first => rfl
    | reset count windowStart hw =>
      simp [check_and_increment, if_pos hw]
    | increment count windowStart hw hc =>
      simp only [check_and_increment]
      rw [if_neg (by omega), if_pos hc]
    | reject count windowStart hw hc =>
      simp only [check_and_increment]
      rw [if_neg (by omega), if_neg (by omega)]
  · intro h
    cases s with
    | noEntry =>
      simp only [check_and_increment] at h
      rw [Prod.mk.injEq] at h
      obtain ⟨rfl, rfl⟩ := h
      exact .first
    | active count windowStart =>
      simp only [check_and_increment] at h
      by_cases hw : w ≤ now - windowStart
      · rw [if_pos hw, Prod.mk.injEq] at h
        obtain ⟨rfl, rfl⟩ := h
        exact .reset count windowStart hw
      · rw [if_neg hw] at h
        by_cases hc : count < m
        · rw [if_pos hc, Prod.mk.injEq] at h
          obtain ⟨rfl, rfl⟩ := h
          exact .increment count windowStart (by omega) hc
        · rw [if_neg hc, Prod.mk.injEq] at h
          obtain ⟨rfl, rfl⟩ := h
          exact .reject count windowStart (by omega) (by omega)

/-! ### Helper lemmas for the extraction safety theorem -/

theorem ne_slash_of_toLower {c x : Char} (h : c.toLower = x)
    (hx : x ≠ '/') : c ≠ '/' := by
  rintro rfl
  rw [show '/'.toLower = '/' from by decide] at h
  exact hx h.symm

theorem ne_dot_of_toLower {c x : Char} (h : c.toLower = x)
    (hx : x ≠ '.') : c ≠ '.' := by
  rintro rfl
  rw [show '.'.toLower = '.' from by decide] at h
  exact hx h.symm

/-- On a reversed character list whose four leading characters lower to
`f`, `d`, `p`, `.`, the basename extractor keeps exactly the final path
component. -/
theorem nameRev_pdf (c1 c2 c3 c4 : Char) (rest : List Char)
    (h1 : c1.toLower = 'f') (h2 : c2.toLower = 'd')
    (h3 : c3.toLower = 'p') (h4 : c4.toLower = '.') :
    nameRev (c1 :: c2 :: c3 :: c4 :: rest) =
      c1 :: c2 :: c3 :: c4 :: rest.takeWhile (fun x => x ≠ '/') := by
  have hs1 : c1 ≠ '/' := ne_slash_of_toLower h1 (by decide)
  have hd1 : c1 ≠ '.' := ne_dot_of_toLower h1 (by decide)
  have hs2 : c2 ≠ '/' := ne_slash_of_toLower h2 (by decide)
  have hs3 : c3 ≠ '/' := ne_slash_of_toLower h3 (by decide)
  have hs4 : c4 ≠ '/' := ne_slash_of_toLower h4 (by decide)
  simp only [nameRev]
  rw [if_neg hs1, if_neg hd1]
  simp [List.takeWhile_cons, hs2, hs3, hs4]

/-- A zip member whose lowered name ends in `.pdf` has a basename that is
nonempty, is not `..`, and contains no path separator. -/
theorem pathName_props_of_pdf (s : String) (h : endsWithPdf s.data = true) :
    pathName s ≠ "" ∧ pathName s ≠ ".." ∧ '/' ∉ (pathName s).data := by
  unfold endsWithPdf at h
  obtain ⟨t, ht⟩ := List.isPrefixOf_iff_prefix.mp h
  rw [← List.map_reverse] at ht
  rcases hre : s.data.reverse with _ | ⟨c1, _ | ⟨c2, _ | ⟨c3, _ | ⟨c4, rest⟩⟩⟩⟩ <;>
    rw [hre] at ht <;> simp at ht
  obtain ⟨h1, h2, h3, h4, -⟩ := ht
  have hname := nameRev_pdf c1 c2 c3 c4 rest h1.symm h2.symm h3.symm h4.symm
  have hdata : (pathName s).data =
      (c1 :: c2 :: c3 :: c4 :: rest.takeWhile (fun x => x ≠ '/')).reverse := by
    rw [pathName, hre, hname]
  have hlen : (pathName s).data.length =
      4 + (rest.takeWhile (fun x => x ≠ '/')).length := by
    rw [hdata]; simp; omega
  refine ⟨?_, ?_, ?_⟩
  · intro he
    rw [he, show ("" : String).data.length = 0 from rfl] at hlen
    omega
  · intro he
    rw [he, show (".." : String).data.length = 2 from rfl] at hlen
    omega
  · rw [hdata]
    intro hmem
    rw [List.mem_reverse] at hmem
    have hs1 : c1 ≠ '/' := ne_slash_of_toLower h1.symm (by decide)
    have hs2 : c2 ≠ '/' := ne_slash_of_toLower h2.symm (by decide)
    have hs3 : c3 ≠ '/' := ne_slash_of_toLower h3.symm (by decide)
    have hs4 : c4 ≠ '/' := ne_slash_of_toLower h4.symm (by decide)
    simp only [List.mem_cons] at hmem
    rcases hmem with hc | hc | hc | hc | hc
    · exact hs1 hc.symm
    · exact hs2 hc.symm
    · exact hs3 hc.symm
    · exact hs4 hc.symm
    · have := List.mem_takeWhile_imp hc
      simp at this

/-- Invariant threaded through the fold of `extract_pdfs`: every write so
far is a fresh basename-only path under `destDir`, written paths are
recorded on the filesystem, and the initial filesystem is retained. -/
def ExtractInv (destDir : String) (members fs0 : List String)
    (st : ExtractState) : Prop :=
  (∀ p ∈ st.writes, ∃ m ∈ members, p = destDir ++ "/" ++ pathName m ∧
      pathName m ≠ "" ∧ pathName m ≠ ".." ∧ '/' ∉ (pathName m).data) ∧
  (∀ p ∈ st.writes, p ∉ fs0) ∧
  st.writes.Nodup ∧
  (∀ p ∈ st.writes, p ∈ st.fs) ∧
  (∀ p ∈ fs0, p ∈ st.fs)

theorem extractStep_inv (destDir : String) (writeOk : String → Bool)
    (members fs0 : List String) (st : ExtractState) (member : String)
    (hm : member ∈ members) (hinv : ExtractInv destDir members fs0 st) :
    ExtractInv destDir members fs0 (extractStep destDir writeOk st member) := by
  obtain ⟨hw, hf0, hnd, hrec, hkeep⟩ := hinv
  simp only [extractStep]
  split
  case isFalse => exact ⟨hw, hf0, hnd, hrec, hkeep⟩
  case isTrue hpdf =>
    split
    case isTrue => exact ⟨hw, hf0, hnd, hrec, hkeep⟩
    case isFalse hne =>
      split
      case isTrue => exact ⟨hw, hf0, hnd, hrec, hkeep⟩
      case isFalse hc =>
        split
        case isFalse => exact ⟨hw, hf0, hnd, hrec, hkeep⟩
        case isTrue =>
          have hnotfs : destDir ++ "/" ++ pathName member ∉ st.fs := by
            simpa using hc
          have hprops := pathName_props_of_pdf member hpdf
          refine ⟨?_, ?_, ?_, ?_, ?_⟩
          · intro p hp
            rw [List.mem_append] at hp
            rcases hp with hp | hp
            · exact hw p hp
            · rw [List.mem_singleton] at hp
              exact ⟨member, hm, hp, hprops⟩
          · intro p hp
            rw [List.mem_append] at hp
            rcases hp with hp | hp
            · exact hf0 p hp
            · rw [List.mem_singleton] at hp
              subst hp
              exact fun hin => hnotfs (hkeep _ hin)
          · rw [List.nodup_append]
            refine ⟨hnd, List.nodup_singleton _, ?_⟩
            intro p hp hp'
            rw [List.mem_singleton] at hp'
            subst hp'
            exact hnotfs (hrec _ hp)
          · intro p hp
            rw [List.mem_append] at hp
            rcases hp with hp | hp
            · exact List.mem_cons_of_mem _ (hrec p hp)
            · rw [List.mem_singleton] at hp
              subst hp
              exact List.mem_cons_self _ _
          · exact fun p hp => List.mem_cons_of_mem _ (hkeep p hp)

theorem extract_foldl_inv (destDir : String) (writeOk : String → Bool)
    (members fs0 : List String) :
    ∀ (l : List String) (st : ExtractState), (∀ m ∈ l, m ∈ members) →
    ExtractInv destDir members fs0 st →
    ExtractInv destDir members fs0 (l.foldl (extractStep destDir writeOk) st) := by
  intro l
  induction l with
  | nil => intro st _ hinv; exact hinv
  | cons m l ih =>
    intro st hsub hinv
    exact ih _ (fun m' hm' => hsub m' (by simp [hm']))
      (extractStep_inv destDir writeOk members fs0 st m (hsub m (by simp)) hinv)

/-- C9: every path written by `extract_pdfs` is `dest_dir` joined with a
single nonempty path component — the basename of some member, never `..`
and never containing a separator, so no member name (including ones with
`..` or directory components) can produce a write outside `dest_dir` —
and no written path existed beforehand or is written twice (existing
files are never overwritten). -/
theorem extract_pdfs_basename_containment (members : List String)
    (destDir : String) (fs : List String) (writeOk : String → Bool) :
    (∀ p ∈ (extract_pdfs members destDir fs writeOk).writes,
        ∃ m ∈ members, p = destDir ++ "/" ++ pathName m ∧
          pathName m ≠ "" ∧ pathName m ≠ ".." ∧ '/' ∉ (pathName m).data) ∧
    (∀ p ∈ (extract_pdfs members destDir fs writeOk).writes, p ∉ fs) ∧
    (extract_pdfs members destDir fs writeOk).writes.Nodup := by
  have h := extract_foldl_inv destDir writeOk members fs members ⟨0, fs, []⟩
    (fun _ hm => hm)
    ⟨by simp, by simp, by simp, by simp, fun p hp => hp⟩
  exact ⟨h.1, h.2.1, h.2.2.1⟩

/-- Witness for C9: the traversal-shaped member `../../evil.pdf` is
written as `/data/evil.pdf`, inside the destination directory. -/
theorem extract_pdfs_basename_containment_witness :
    ∃ m ∈ (["../../evil.pdf"] : List String),
      "/data/evil.pdf" = "/data" ++ "/" ++ pathName m ∧ pathName m ≠ "" ∧
      pathName m ≠ ".." ∧ '/' ∉ (pathName m).data :=
  (extract_pdfs_basename_containment ["../../evil.pdf"] "/data" []
      (fun _ => true)).1 "/data/evil.pdf" (by decide)

end EpsteinStudio
